import Mathlib

/-!
Shallow embedding of the periodic-directive graph walker of
`src/day_8/src/main.rs` (the repository's "core" per the spec):
transition map, directive tape, single/multi-token walk, per-token
cycle analysis and the GCD/LCM-style combiner.

Modelling conventions:
* Rust's `HashMap<String, (String, String)>` becomes an association
  list with insert-replaces semantics (newest entry shadows older ones).
* Rust panics (indexing a missing key, `unwrap`, `expect`, `%` by zero)
  become `none`.
* The possibly non-terminating walk loop takes a fuel argument; `none`
  also covers fuel exhaustion.
* The `FnMut` acceptance closures become explicit state passing: a
  check function `σ → List String → Bool × σ`.
-/

namespace Day8

inductive Direction where
  | left
  | right
deriving DecidableEq, Repr

structure Map where
  directions : List (String × String × String)
deriving DecidableEq, Repr

/-- `Map::default()`. -/
def Map.default : Map := ⟨[]⟩

/-- `Map::add_direction`: `HashMap::insert` replaces an existing entry,
which the cons + first-match lookup below reproduces. -/
def Map.add_direction (m : Map) (src left right : String) : Map :=
  ⟨(src, left, right) :: m.directions⟩

/-- The `self.directions[from]` lookup; `none` models the Rust panic on a
missing key. -/
def Map.lookup (m : Map) (node : String) : Option (String × String) :=
  match m.directions.find? (fun e => e.1 == node) with
  | some e => some e.2
  | none => none

/-- `Map::step`: pick the left or right successor of `node`. -/
def Map.step (m : Map) (node : String) (d : Direction) : Option String :=
  (m.lookup node).map (fun options =>
    match d with
    | .left => options.1
    | .right => options.2)

structure Puzzle where
  map : Map
  directions : List Direction

/-- The tape indexing `self.directions[steps % self.directions.len()]`
performed inside the walk loop.  On an empty tape Rust would panic
(`% 0`), modelled by `none` (out-of-bounds index). -/
def directiveAt (p : Puzzle) (steps : Nat) : Option Direction :=
  p.directions[steps % p.directions.length]?

/-- One synchronized step: `currents.iter_mut().for_each(|val| *val = step ...)`.
`none` models the panic on a node without an entry. -/
def stepAll (m : Map) (d : Direction) : List String → Option (List String)
  | [] => some []
  | c :: rest =>
    match m.step c d with
    | none => none
    | some c2 =>
      match stepAll m d rest with
      | none => none
      | some rest2 => some (c2 :: rest2)

/-- The body of the `loop` in `Puzzle::count_simultanious_steps_until`:
test the check function on the current nodes, return `(steps, currents)`
the moment it holds, otherwise advance every node by the tape entry at
the current step count and retry.  `fuel` bounds the number of steps
taken (the check is still run when fuel is exhausted, matching the
test-before-step order of the source). -/
def countStepsUntilAux {σ : Type} (p : Puzzle) (check : σ → List String → Bool × σ) :
    Nat → Nat → σ → List String → Option (Nat × List String)
  | 0, steps, s, currents =>
    if (check s currents).1 = true then some (steps, currents) else none
  | fuel + 1, steps, s, currents =>
    if (check s currents).1 = true then some (steps, currents)
    else
      match directiveAt p steps with
      | none => none
      | some d =>
        match stepAll p.map d currents with
        | none => none
        | some nexts =>
          countStepsUntilAux p check fuel (steps + 1) (check s currents).2 nexts

/-- `Puzzle::count_simultanious_steps_until`. -/
def count_simultanious_steps_until {σ : Type} (p : Puzzle) (fuel : Nat)
    (froms : List String) (check : σ → List String → Bool × σ) (s : σ) :
    Option (Nat × List String) :=
  if froms.length = 0 then none
  else countStepsUntilAux p check fuel 0 s froms

/-- `Puzzle::count_simultanious_steps`. -/
def count_simultanious_steps (p : Puzzle) (fuel : Nat)
    (froms tos : List String) : Option Nat :=
  if froms.length ≠ tos.length ∨ froms.length = 0 then none
  else
    (count_simultanious_steps_until p fuel froms
        (fun (_ : Unit) currents => (currents == tos, ())) ()).map (·.1)

/-- `Puzzle::count_steps` (the `.unwrap()` stays inside the `Option`). -/
def count_steps (p : Puzzle) (fuel : Nat) (src dst : String) : Option Nat :=
  count_simultanious_steps p fuel [src] [dst]

/-- Rust `str::ends_with('Z')`: the last character is `Z`. -/
def endsWithZ (s : String) : Bool := s.data.getLast? == some 'Z'

/-- The first closure of `get_puzzle_loops`: `|s| s.iter().all(|l| l.ends_with('Z'))`. -/
def allZCheck (_ : Unit) (l : List String) : Bool × Unit := (l.all endsWithZ, ())

/-- The second closure of `get_puzzle_loops`: reports `false` on its first
call (the mutable `first` flag), afterwards `|l| l.iter().any(|n| n.ends_with('Z'))`. -/
def secondZCheck (first : Bool) (l : List String) : Bool × Bool :=
  if first then (false, false) else (l.any endsWithZ, false)

/-- The per-start body of the `for start in starts` loop of
`get_puzzle_loops`: two walks, then the three validation checks with the
source's error strings.  Outer `none` models `.unwrap()` panics or fuel
exhaustion. -/
def analyzeToken (p : Puzzle) (fuel : Nat) (start : String) :
    Option (Except String Nat) :=
  match count_simultanious_steps_until p fuel [start] allZCheck () with
  | none => none
  | some (steps, zs) =>
    match zs with
    | [] => none
    | z_val :: _ =>
      match count_simultanious_steps_until p fuel [z_val] secondZCheck true with
      | none => none
      | some (next_steps, nzs) =>
        match nzs with
        | [] => none
        | next_z_val :: _ =>
          if next_z_val ≠ z_val then
            some (Except.error
              ("More than 1 Z on track! Found " ++ z_val ++ " then " ++ next_z_val))
          else if next_steps ≠ steps then
            some (Except.error
              ("Loop doesn\x27t contain the same steps! First Z after " ++
                toString steps ++ " and 2nd after " ++ toString next_steps))
          else if steps % p.directions.length ≠ 0 then
            some (Except.error
              "Loop doesn\x27t conform with direction count and so isn\x27t easily computable. Not supported!")
          else some (Except.ok steps)

/-- `get_puzzle_loops`: run `analyzeToken` on every start, stopping at the
first error. -/
def get_puzzle_loops (p : Puzzle) (fuel : Nat) :
    List String → Option (Except String (List Nat))
  | [] => some (Except.ok [])
  | start :: rest =>
    match analyzeToken p fuel start with
    | none => none
    | some (Except.error e) => some (Except.error e)
    | some (Except.ok steps) =>
      match get_puzzle_loops p fuel rest with
      | none => none
      | some (Except.error e) => some (Except.error e)
      | some (Except.ok l) => some (Except.ok (steps :: l))

/-- The `reduce(|a, b| a.gcd(b))` of `get_lowest_product`; `none` models
the `expect("No numbers supplied!")` panic on an empty slice. -/
def reduceGcd : List Nat → Option Nat
  | [] => none
  | v :: rest => some (rest.foldl Nat.gcd v)

/-- `get_lowest_product`: divide every value by the reduced GCD, take the
product and multiply the GCD back. -/
def get_lowest_product (vals : List Nat) : Option Nat :=
  match reduceGcd vals with
  | none => none
  | some g => some ((vals.map (fun v => v / g)).prod * g)

/-- The graph of the repository's `example.txt` test fixture, rendered
with the node names `A:(B,B)`, `B:(A,Z)`, `Z:(Z,Z)` and the tape `LLR`. -/
def examplePuzzle : Puzzle :=
  { map := ((Map.default.add_direction "A" "B" "B").add_direction
        "B" "A" "Z").add_direction "Z" "Z" "Z"
    directions := [Direction.left, Direction.left, Direction.right] }

/-- A two-token graph with the loops `11A→11B→11Z→11B` and
`22A→22B→22C→22Z→22B` under the tape `LR` (the `simultanious_example.txt`
scenario). -/
def simPuzzle : Puzzle :=
  { map := ((((((Map.default.add_direction "11A" "11B" "11B").add_direction
        "11B" "11Z" "11Z").add_direction "11Z" "11B" "11B").add_direction
        "22A" "22B" "22B").add_direction "22B" "22C" "22C").add_direction
        "22C" "22Z" "22Z").add_direction "22Z" "22B" "22B"
    directions := [Direction.left, Direction.right] }

/-- A single accepting node that is its own left and right successor. -/
def selfLoopPuzzle : Puzzle :=
  { map := Map.default.add_direction "11Z" "11Z" "11Z"
    directions := [Direction.left] }

/-- A two-node loop whose two accepting nodes alternate, so the second
acceptance lands on a different node than the first. -/
def twoZPuzzle : Puzzle :=
  { map := (Map.default.add_direction "11Z" "22Z" "22Z").add_direction
      "22Z" "11Z" "11Z"
    directions := [Direction.left] }

/-- The map of the `test_step` unit test. -/
def exampleMap : Map := Map.default.add_direction "AAA" "BBB" "CCC"

/-! ### Helper lemmas -/

/-- If the check holds on the current nodes, the loop body returns at once
with the current step count, whatever the remaining fuel. -/
theorem countStepsUntilAux_check_true {σ : Type} (p : Puzzle)
    (check : σ → List String → Bool × σ) (fuel steps : Nat) (s : σ)
    (currents : List String) (h : (check s currents).1 = true) :
    countStepsUntilAux p check fuel steps s currents = some (steps, currents) := by
  cases fuel <;> simp [countStepsUntilAux, h]

/-- One-step unfolding of the loop body at zero fuel. -/
theorem countStepsUntilAux_zero {σ : Type} (p : Puzzle)
    (check : σ → List String → Bool × σ) (steps : Nat) (s : σ)
    (currents : List String) :
    countStepsUntilAux p check 0 steps s currents =
      if (check s currents).1 = true then some (steps, currents) else none := rfl

/-- One-step unfolding of the loop body at positive fuel. -/
theorem countStepsUntilAux_succ {σ : Type} (p : Puzzle)
    (check : σ → List String → Bool × σ) (fuel steps : Nat) (s : σ)
    (currents : List String) :
    countStepsUntilAux p check (fuel + 1) steps s currents =
      if (check s currents).1 = true then some (steps, currents)
      else
        match directiveAt p steps with
        | none => none
        | some d =>
          match stepAll p.map d currents with
          | none => none
          | some nexts =>
            countStepsUntilAux p check fuel (steps + 1) (check s currents).2 nexts := rfl

/-- A successful walk stays successful with one more unit of fuel. -/
theorem countStepsUntilAux_mono {σ : Type} (p : Puzzle)
    (check : σ → List String → Bool × σ) :
    ∀ (fuel steps : Nat) (s : σ) (currents : List String) (r : Nat × List String),
      countStepsUntilAux p check fuel steps s currents = some r →
      countStepsUntilAux p check (fuel + 1) steps s currents = some r := by
  intro fuel
  induction fuel with
  | zero =>
    intro steps s currents r h
    rw [countStepsUntilAux_zero] at h
    by_cases hc : (check s currents).1 = true
    · rw [if_pos hc] at h
      rw [countStepsUntilAux_check_true p check 1 steps s currents hc]
      exact h
    · rw [if_neg hc] at h
      exact absurd h (by simp)
  | succ f ih =>
    intro steps s currents r h
    rw [countStepsUntilAux_succ] at h
    rw [countStepsUntilAux_succ]
    by_cases hc : (check s currents).1 = true
    · rw [if_pos hc] at h ⊢
      exact h
    · rw [if_neg hc] at h ⊢
      cases hd : directiveAt p steps with
      | none => rw [hd] at h; exact absurd h (by simp)
      | some d =>
        rw [hd] at h
        dsimp only at h ⊢
        cases hs : stepAll p.map d currents with
        | none => rw [hs] at h; exact absurd h (by simp)
        | some nexts =>
          rw [hs] at h
          dsimp only at h ⊢
          exact ih (steps + 1) (check s currents).2 nexts r h

/-- A successful walk stays successful with any extra fuel. -/
theorem countStepsUntilAux_add {σ : Type} (p : Puzzle)
    (check : σ → List String → Bool × σ) (fuel steps : Nat) (s : σ)
    (currents : List String) (r : Nat × List String)
    (h : countStepsUntilAux p check fuel steps s currents = some r) :
    ∀ extra, countStepsUntilAux p check (fuel + extra) steps s currents = some r := by
  intro extra
  induction extra with
  | zero => exact h
  | succ e ih => exact countStepsUntilAux_mono p check (fuel + e) steps s currents r ih

/-- Fuel-irrelevance for `count_simultanious_steps_until` once it succeeds. -/
theorem count_simultanious_steps_until_add {σ : Type} (p : Puzzle) (fuel : Nat)
    (froms : List String) (check : σ → List String → Bool × σ) (s : σ)
    (r : Nat × List String)
    (h : count_simultanious_steps_until p fuel froms check s = some r) :
    ∀ extra, count_simultanious_steps_until p (fuel + extra) froms check s = some r := by
  intro extra
  unfold count_simultanious_steps_until at h ⊢
  by_cases hf : froms.length = 0
  · rw [if_pos hf] at h
    exact absurd h (by simp)
  · rw [if_neg hf] at h ⊢
    exact countStepsUntilAux_add p check fuel 0 s froms r h extra

/-- A walk whose check already holds at the start returns `(0, froms)`. -/
theorem count_simultanious_steps_until_check_true {σ : Type} (p : Puzzle)
    (fuel : Nat) (froms : List String) (check : σ → List String → Bool × σ)
    (s : σ) (hne : froms ≠ []) (h : (check s froms).1 = true) :
    count_simultanious_steps_until p fuel froms check s = some (0, froms) := by
  unfold count_simultanious_steps_until
  rw [if_neg (by simpa [List.length_eq_zero] using hne)]
  exact countStepsUntilAux_check_true p check fuel 0 s froms h

/-- The left fold of `Nat.gcd` divides its seed. -/
theorem foldl_gcd_dvd_seed : ∀ (rest : List Nat) (v : Nat),
    rest.foldl Nat.gcd v ∣ v := by
  intro rest
  induction rest with
  | nil => intro v; exact dvd_refl v
  | cons b t ih =>
    intro v
    exact dvd_trans (ih (Nat.gcd v b)) (Nat.gcd_dvd_left v b)

/-- The left fold of `Nat.gcd` divides every element of the list. -/
theorem foldl_gcd_dvd_mem : ∀ (rest : List Nat) (v x : Nat), x ∈ rest →
    rest.foldl Nat.gcd v ∣ x := by
  intro rest
  induction rest with
  | nil => intro v x hx; cases hx
  | cons b t ih =>
    intro v x hx
    rcases List.mem_cons.mp hx with rfl | hx
    · exact dvd_trans (foldl_gcd_dvd_seed t (Nat.gcd v x)) (Nat.gcd_dvd_right v x)
    · exact ih (Nat.gcd v b) x hx

/-- Any common divisor of the seed and the elements divides the fold. -/
theorem dvd_foldl_gcd : ∀ (rest : List Nat) (v d : Nat), d ∣ v →
    (∀ x ∈ rest, d ∣ x) → d ∣ rest.foldl Nat.gcd v := by
  intro rest
  induction rest with
  | nil => intro v d hv _; exact hv
  | cons b t ih =>
    intro v d hv hmem
    exact ih (Nat.gcd v b) d (Nat.dvd_gcd hv (hmem b (List.mem_cons_self b t)))
      (fun x hx => hmem x (List.mem_cons_of_mem b hx))

/-- Every member of `l` divides `(∏ (x / g)) * g` once `g` divides it. -/
theorem mem_dvd_div_prod_mul (l : List Nat) (g x : Nat) (hg : g ∣ x)
    (hx : x ∈ l) : x ∣ (l.map (fun y => y / g)).prod * g := by
  have h1 : x / g ∈ l.map (fun y => y / g) := List.mem_map_of_mem _ hx
  have h2 : x / g ∣ (l.map (fun y => y / g)).prod := List.dvd_prod h1
  calc x = x / g * g := (Nat.div_mul_cancel hg).symm
    _ ∣ (l.map (fun y => y / g)).prod * g := mul_dvd_mul h2 dvd_rfl

/-! ### Claim theorems -/

/-- Claim C1: the Combiner on the example length sequences.  The code
confirms `combine([4, 6]) = 12` and `combine([6]) = 6` but returns `48`
on `[4, 6, 8]`, not the claimed `24` (the true least common multiple):
the source's `∏(v / gcd) * gcd` over-counts the shared factor for three
or more inputs. -/
theorem combiner_example_values :
    get_lowest_product [4, 6] = some 12 ∧
    get_lowest_product [6] = some 6 ∧
    get_lowest_product [4, 6, 8] = some 48 ∧
    get_lowest_product [4, 6, 8] ≠ some 24 := by
  refine ⟨by decide, by decide, by decide, by decide⟩

/-- Claim C2, counterexample: on `[4, 6, 8]` the Combiner's result (48)
is not the product of the lengths divided by their overall left-to-right
GCD (192 / 2 = 96). -/
theorem combiner_formula_counterexample :
    get_lowest_product [4, 6, 8] ≠
      some ((4 * 6 * 8) / (([6, 8] : List Nat).foldl Nat.gcd 4)) := by decide

/-- Claim C2 (amended): for every non-empty sequence of positive lengths
the Combiner reduces them left-to-right by Euclidean pairwise GCD to the
(order-independent) overall GCD `g` — `g` divides every length and every
common divisor divides `g` — and its final result is `∏(length / g) * g`,
a common multiple of all the lengths; for a single positive length this
is the length itself, and for exactly two lengths it equals
`product / gcd`. -/
theorem combiner_amended (v : Nat) (rest : List Nat)
    (hpos : ∀ x ∈ v :: rest, 0 < x) :
    reduceGcd (v :: rest) = some (rest.foldl Nat.gcd v) ∧
    (∀ x ∈ v :: rest, rest.foldl Nat.gcd v ∣ x) ∧
    (∀ d : Nat, (∀ x ∈ v :: rest, d ∣ x) → d ∣ rest.foldl Nat.gcd v) ∧
    get_lowest_product (v :: rest) =
      some (((v :: rest).map (fun x => x / rest.foldl Nat.gcd v)).prod *
        rest.foldl Nat.gcd v) ∧
    (∀ x ∈ v :: rest,
        x ∣ ((v :: rest).map (fun x => x / rest.foldl Nat.gcd v)).prod *
          rest.foldl Nat.gcd v) ∧
    (∀ a : Nat, 0 < a → get_lowest_product [a] = some a) ∧
    (∀ a b : Nat, get_lowest_product [a, b] = some (a * b / Nat.gcd a b)) := by
  refine ⟨rfl, ?_, ?_, rfl, ?_, ?_, ?_⟩
  · intro x hx
    rcases List.mem_cons.mp hx with rfl | hx
    · exact foldl_gcd_dvd_seed rest x
    · exact foldl_gcd_dvd_mem rest v x hx
  · intro d hd
    exact dvd_foldl_gcd rest v d (hd v (List.mem_cons_self v rest))
      (fun x hx => hd x (List.mem_cons_of_mem v hx))
  · intro x hx
    refine mem_dvd_div_prod_mul (v :: rest) (rest.foldl Nat.gcd v) x ?_ hx
    rcases List.mem_cons.mp hx with rfl | hx
    · exact foldl_gcd_dvd_seed rest x
    · exact foldl_gcd_dvd_mem rest v x hx
  · intro a ha
    have hdef : get_lowest_product [a] = some (a / a * 1 * a) := rfl
    rw [hdef, Nat.div_self ha, one_mul, one_mul]
  · intro a b
    have hdef : get_lowest_product [a, b] =
        some (a / Nat.gcd a b * (b / Nat.gcd a b * 1) * Nat.gcd a b) := rfl
    rw [hdef]
    refine congrArg some ?_
    calc a / Nat.gcd a b * (b / Nat.gcd a b * 1) * Nat.gcd a b
        = a / Nat.gcd a b * (b / Nat.gcd a b) * Nat.gcd a b := by rw [mul_one]
      _ = a / Nat.gcd a b * Nat.gcd a b * (b / Nat.gcd a b) := mul_right_comm _ _ _
      _ = a * (b / Nat.gcd a b) := by rw [Nat.div_mul_cancel (Nat.gcd_dvd_left a b)]
      _ = a * b / Nat.gcd a b := (Nat.mul_div_assoc a (Nat.gcd_dvd_right a b)).symm

/-- Witness for the amended Claim C2 at `[4, 6, 8]`. -/
theorem combiner_amended_witness :
    get_lowest_product [4, 6, 8] =
      some ((([4, 6, 8] : List Nat).map
          (fun x => x / ([6, 8] : List Nat).foldl Nat.gcd 4)).prod *
        ([6, 8] : List Nat).foldl Nat.gcd 4) :=
  (combiner_amended 4 [6, 8] (by decide)).2.2.2.1

/-- Claim C3: when the second accepting visit lands on a different node,
or takes a different number of steps, or the first step count is not a
multiple of the tape length, the per-token cycle analysis returns the
corresponding descriptive error (with the observed values) and never an
`ok` cycle length. -/
theorem cycle_validation_errors (p : Puzzle) (fuel : Nat) (start : String)
    (steps : Nat) (z : String) (zs : List String)
    (next_steps : Nat) (nz : String) (nzs : List String)
    (h1 : count_simultanious_steps_until p fuel [start] allZCheck () =
      some (steps, z :: zs))
    (h2 : count_simultanious_steps_until p fuel [z] secondZCheck true =
      some (next_steps, nz :: nzs)) :
    (nz ≠ z → analyzeToken p fuel start = some (Except.error
        ("More than 1 Z on track! Found " ++ z ++ " then " ++ nz))) ∧
    (nz = z → next_steps ≠ steps → analyzeToken p fuel start = some (Except.error
        ("Loop doesn\x27t contain the same steps! First Z after " ++
          toString steps ++ " and 2nd after " ++ toString next_steps))) ∧
    (nz = z → next_steps = steps → steps % p.directions.length ≠ 0 →
      analyzeToken p fuel start = some (Except.error
        "Loop doesn\x27t conform with direction count and so isn\x27t easily computable. Not supported!")) ∧
    ((nz ≠ z ∨ next_steps ≠ steps ∨ steps % p.directions.length ≠ 0) →
      ∀ n : Nat, analyzeToken p fuel start ≠ some (Except.ok n)) := by
  have hA : analyzeToken p fuel start =
      if nz ≠ z then some (Except.error
        ("More than 1 Z on track! Found " ++ z ++ " then " ++ nz))
      else if next_steps ≠ steps then some (Except.error
        ("Loop doesn\x27t contain the same steps! First Z after " ++
          toString steps ++ " and 2nd after " ++ toString next_steps))
      else if steps % p.directions.length ≠ 0 then some (Except.error
        "Loop doesn\x27t conform with direction count and so isn\x27t easily computable. Not supported!")
      else some (Except.ok steps) := by
    unfold analyzeToken
    rw [h1]
    dsimp only
    rw [h2]
  refine ⟨?_, ?_, ?_, ?_⟩
  · intro hne
    rw [hA, if_pos hne]
  · intro heq hne
    rw [hA, if_neg (by simp [heq]), if_pos hne]
  · intro heq hse hmod
    rw [hA, if_neg (by simp [heq]), if_neg (by simp [hse]), if_pos hmod]
  · intro hviol n
    rw [hA]
    rcases hviol with hv | hv | hv
    · rw [if_pos hv]; simp
    · by_cases hz : nz ≠ z
      · rw [if_pos hz]; simp
      · rw [if_neg hz, if_pos hv]; simp
    · by_cases hz : nz ≠ z
      · rw [if_pos hz]; simp
      · rw [if_neg hz]
        by_cases hs : next_steps ≠ steps
        · rw [if_pos hs]; simp
        · rw [if_neg hs, if_pos hv]; simp

/-- Witness for Claim C3 on the alternating two-`Z` loop: the analysis
cannot return an `ok` length there. -/
theorem cycle_validation_errors_witness :
    analyzeToken twoZPuzzle 5 "11Z" ≠ some (Except.ok 0) :=
  (cycle_validation_errors twoZPuzzle 5 "11Z" 0 "11Z" [] 1 "22Z" []
    (by decide) (by decide)).2.2.2 (Or.inl (by decide)) 0

/-- Claim C4: for a non-empty tape, the directive applied at step `i` is
the tape entry at index `i mod tape_length`, hence
`directive_at (i + tape_length) = directive_at i`. -/
theorem directive_at_mod_spec (p : Puzzle) (i : Nat) (h : p.directions ≠ []) :
    (∃ hlt : i % p.directions.length < p.directions.length,
        directiveAt p i = some (p.directions.get ⟨i % p.directions.length, hlt⟩)) ∧
    directiveAt p (i + p.directions.length) = directiveAt p i := by
  have hpos : 0 < p.directions.length := List.length_pos.mpr h
  have hlt : i % p.directions.length < p.directions.length := Nat.mod_lt _ hpos
  constructor
  · refine ⟨hlt, ?_⟩
    unfold directiveAt
    rw [List.getElem?_eq_getElem hlt]
    simp [List.get_eq_getElem]
  · unfold directiveAt
    rw [Nat.add_mod_right]

/-- Witness for Claim C4 on the three-entry tape `LLR` at step 4. -/
theorem directive_at_mod_witness :
    directiveAt examplePuzzle (4 + examplePuzzle.directions.length) =
      directiveAt examplePuzzle 4 :=
  (directive_at_mod_spec examplePuzzle 4 (by decide)).2

/-- Claim C5: the walk tests the check before taking any step and returns
the current step count and nodes the moment it holds; on the accepting
self-loop it returns `(0, node)`, and `(1, node)` when the first check is
forced to be false. -/
theorem walk_checks_before_step :
    (∀ (σ : Type) (p : Puzzle) (froms : List String)
        (check : σ → List String → Bool × σ) (s : σ) (fuel : Nat),
        froms ≠ [] → (check s froms).1 = true →
        count_simultanious_steps_until p fuel froms check s = some (0, froms)) ∧
    (∀ fuel : Nat, count_simultanious_steps_until selfLoopPuzzle fuel
        ["11Z"] allZCheck () = some (0, ["11Z"])) ∧
    (∀ extra : Nat, count_simultanious_steps_until selfLoopPuzzle (1 + extra)
        ["11Z"] secondZCheck true = some (1, ["11Z"])) := by
  refine ⟨?_, ?_, ?_⟩
  · intro σ p froms check s fuel hne hc
    exact count_simultanious_steps_until_check_true p fuel froms check s hne hc
  · intro fuel
    exact count_simultanious_steps_until_check_true selfLoopPuzzle fuel ["11Z"]
      allZCheck () (by decide) (by decide)
  · intro extra
    exact count_simultanious_steps_until_add selfLoopPuzzle 1 ["11Z"]
      secondZCheck true (1, ["11Z"]) (by decide) extra

/-- Witness for Claim C5: an already-satisfied exact-match predicate ends
the walk at step 0 even with no fuel. -/
theorem walk_checks_before_step_witness :
    count_simultanious_steps_until examplePuzzle 0 ["Z"]
      (fun (_ : Unit) currents => (currents == ["Z"], ())) () = some (0, ["Z"]) :=
  walk_checks_before_step.1 Unit examplePuzzle ["Z"]
    (fun _ currents => (currents == ["Z"], ())) () 0 (by decide) (by decide)

/-- Claim C6: the synchronized two-token walk from `{11A, 22A}` to the
exact match `{11Z, 22Z}` returns 6 (for any sufficient fuel), while each
token individually first reaches its `Z` node after 2 and 3 steps. -/
theorem synchronized_walk_example :
    (∀ extra : Nat, count_simultanious_steps simPuzzle (6 + extra)
        ["11A", "22A"] ["11Z", "22Z"] = some 6) ∧
    count_simultanious_steps_until simPuzzle 10 ["11A"] allZCheck () =
      some (2, ["11Z"]) ∧
    count_simultanious_steps_until simPuzzle 10 ["22A"] allZCheck () =
      some (3, ["22Z"]) := by
  refine ⟨?_, by decide, by decide⟩
  intro extra
  unfold count_simultanious_steps
  rw [if_neg (by decide)]
  rw [count_simultanious_steps_until_add simPuzzle 6 ["11A", "22A"]
    (fun _ currents => (currents == ["11Z", "22Z"], ())) ()
    (6, ["11Z", "22Z"]) (by decide) extra]
  rfl

/-- Claim C7: on the graph `A:(B,B), B:(A,Z), Z:(Z,Z)` with tape `LLR`,
walking from `A` until the node equals `Z` takes exactly 6 steps. -/
theorem round_trip_example :
    ∀ extra : Nat, count_steps examplePuzzle (6 + extra) "A" "Z" = some 6 := by
  intro extra
  unfold count_steps count_simultanious_steps
  rw [if_neg (by decide)]
  rw [count_simultanious_steps_until_add examplePuzzle 6 ["A"]
    (fun _ currents => (currents == ["Z"], ())) () (6, ["Z"]) (by decide) extra]
  rfl

/-- Claim C8: the Combiner fails (the `expect` panic, modelled as `none`)
exactly on the empty sequence, and yields an integer on every non-empty
one. -/
theorem combiner_empty_input :
    get_lowest_product [] = none ∧
    ∀ (v : Nat) (rest : List Nat), ∃ n : Nat,
      get_lowest_product (v :: rest) = some n := by
  refine ⟨rfl, ?_⟩
  intro v rest
  exact ⟨_, rfl⟩

/-- Claim C9: `step` on a node with no registered entry fails (the map
indexing panic, modelled as `none`); on a registered node it returns the
first component for `Left` and the second for `Right`. -/
theorem step_lookup_spec (m : Map) (node : String) :
    (∀ d : Direction, (∀ e ∈ m.directions, ¬ e.1 = node) →
        m.step node d = none) ∧
    (∀ left right : String, m.lookup node = some (left, right) →
        m.step node Direction.left = some left ∧
        m.step node Direction.right = some right) := by
  constructor
  · intro d hnone
    have hfind : m.directions.find? (fun e => e.1 == node) = none := by
      rw [List.find?_eq_none]
      intro e he
      simpa using hnone e he
    simp [Map.step, Map.lookup, hfind]
  · intro left right hlk
    exact ⟨by simp [Map.step, hlk], by simp [Map.step, hlk]⟩

/-- Witness for Claim C9 on the `test_step` map. -/
theorem step_lookup_witness :
    exampleMap.step "XXX" Direction.left = none ∧
    exampleMap.step "AAA" Direction.left = some "BBB" ∧
    exampleMap.step "AAA" Direction.right = some "CCC" :=
  ⟨(step_lookup_spec exampleMap "XXX").1 Direction.left (by decide),
   ((step_lookup_spec exampleMap "AAA").2 "BBB" "CCC" (by decide)).1,
   ((step_lookup_spec exampleMap "AAA").2 "BBB" "CCC" (by decide)).2⟩

/-- Claim C10: `count_simultanious_steps` returns `none` whenever the
start and target lists have different lengths or the start list is empty,
and `count_simultanious_steps_until` returns `none` on an empty start
list, in every case before taking a step (for any fuel). -/
theorem none_on_bad_lengths (p : Puzzle) (fuel : Nat) :
    (∀ froms tos : List String, froms.length ≠ tos.length ∨ froms.length = 0 →
        count_simultanious_steps p fuel froms tos = none) ∧
    (∀ (σ : Type) (check : σ → List String → Bool × σ) (s : σ),
        count_simultanious_steps_until p fuel [] check s = none) := by
  constructor
  · intro froms tos h
    unfold count_simultanious_steps
    rw [if_pos h]
  · intro σ check s
    unfold count_simultanious_steps_until
    have h0 : ([] : List String).length = 0 := rfl
    rw [if_pos h0]

/-- Witness for Claim C10: one start and no targets yields `none`. -/
theorem none_on_bad_lengths_witness :
    count_simultanious_steps examplePuzzle 3 ["A"] [] = none :=
  (none_on_bad_lengths examplePuzzle 3).1 ["A"] [] (Or.inl (by decide))

end Day8
